import Mathlib

/-!
A verification development for the `monads` TypeScript library: shallow
embeddings of its container types (Either, Try, Option, IO, Future,
AsyncEither) and proofs about their operations.

JavaScript runtime values relevant to the library are modelled by the
inductive type `Val`; object identity is ignored (values are compared
structurally), and an `Error` object is modelled by its message.
-/

/-- A JavaScript runtime value as used by the library: `null`, `undefined`,
booleans, (integer) numbers, strings, `Error` objects (modelled by their
message) and arrays. -/
inductive Val where
| vnull : Val
| vundef : Val
| vbool (b : Bool) : Val
| vnum (n : Int) : Val
| vstr (s : String) : Val
| verror (msg : String) : Val
| varr (elems : List Val) : Val
deriving Repr

mutual
/-- Structural equality test for `Val`. -/
def Val.beq : Val → Val → Bool
| .vnull, .vnull => true
| .vundef, .vundef => true
| .vbool a, .vbool b => a == b
| .vnum a, .vnum b => a == b
| .vstr a, .vstr b => a == b
| .verror a, .verror b => a == b
| .varr a, .varr b => Val.beqList a b
| _, _ => false

/-- Structural equality test for lists of `Val`. -/
def Val.beqList : List Val → List Val → Bool
| [], [] => true
| a :: as, b :: bs => Val.beq a b && Val.beqList as bs
| _, _ => false
end

mutual
theorem Val.beq_iff : ∀ a b : Val, Val.beq a b = true ↔ a = b
| .vnull, b => by cases b <;> simp [Val.beq]
| .vundef, b => by cases b <;> simp [Val.beq]
| .vbool a, b => by cases b <;> simp [Val.beq]
| .vnum a, b => by cases b <;> simp [Val.beq]
| .vstr a, b => by cases b <;> simp [Val.beq]
| .verror a, b => by cases b <;> simp [Val.beq]
| .varr a, b => by
  cases b <;> simp [Val.beq]
  exact Val.beqList_iff a _

theorem Val.beqList_iff : ∀ as bs : List Val, Val.beqList as bs = true ↔ as = bs
| [], bs => by cases bs <;> simp [Val.beqList]
| a :: as, bs => by
  cases bs with
  | nil => simp [Val.beqList]
  | cons b bs =>
    simp [Val.beqList, Val.beq_iff a b, Val.beqList_iff as bs]
end

instance : DecidableEq Val := fun a b => decidable_of_iff _ (Val.beq_iff a b)

/-- Whether a value is `null` or `undefined` (the JavaScript `== null` test
used by `Option.of`). -/
def Val.isNullish : Val → Bool
| .vnull => true
| .vundef => true
| _ => false

/-- Whether a value is an `Error` instance (the `instanceof Error` test). -/
def Val.isError : Val → Bool
| .verror _ => true
| _ => false

mutual
/-- JavaScript string conversion (`String(v)` / string concatenation):
`null` becomes "null", `undefined` becomes "undefined", an `Error` prints as
`Error: msg` (or just `Error` when the message is empty), and an array joins
its elements with commas, printing nullish elements as the empty string. -/
def Val.jsToString : Val → String
| .vnull => "null"
| .vundef => "undefined"
| .vbool b => cond b "true" "false"
| .vnum n => toString n
| .vstr s => s
| .verror msg => if msg = "" then "Error" else "Error: " ++ msg
| .varr elems => Val.joinElems elems

/-- `Array.prototype.toString`: elements joined by commas, with `null` and
`undefined` elements rendered as the empty string. -/
def Val.joinElems : List Val → String
| [] => ""
| [.vnull] => ""
| [.vundef] => ""
| [v] => Val.jsToString v
| .vnull :: rest => "," ++ Val.joinElems rest
| .vundef :: rest => "," ++ Val.joinElems rest
| v :: rest => Val.jsToString v ++ "," ++ Val.joinElems rest
end

namespace Monads

/-- The outcome of invoking a JavaScript zero-argument closure: it either
returns a value or throws one (the thrown value need not be an `Error`). -/
inductive Outcome where
| ret (v : Val) : Outcome
| thr (v : Val) : Outcome
deriving DecidableEq, Repr

/-- The settled state of a JavaScript promise: resolved with a value or
rejected with a reason. -/
inductive Promised where
| resolved (v : Val) : Promised
| rejected (e : Val) : Promised
deriving DecidableEq, Repr

/-- How the value produced by a `.then`/`.catch` handler settles the promise
the handler returns into: a returned value resolves it, a thrown value
rejects it. -/
def Outcome.settle : Outcome → Promised
| .ret v => .resolved v
| .thr e => .rejected e

/-- `promise.then(handler)`: on resolution the handler runs and its outcome
settles the new promise; a rejection passes through untouched. -/
def Promised.thenRun (p : Promised) (handler : Val → Outcome) : Promised :=
match p with
| .resolved v => (handler v).settle
| .rejected e => .rejected e

/-- `promise.catch(handler)`: on rejection the handler runs and its outcome
settles the new promise; a resolution passes through untouched. -/
def Promised.catchRun (p : Promised) (handler : Val → Outcome) : Promised :=
match p with
| .resolved v => .resolved v
| .rejected e => (handler e).settle

/-- `class Future<T>` from `src/future/future.ts`, modelled by the settled
state its wrapped `() => Promise<T>` action eventually reaches. -/
structure Future where
action : Promised
deriving DecidableEq, Repr

/-- `Future.complete(onSuccess, onFailure)`:
`this.action().then(onSuccess).catch(onFailure)`. Handlers are modelled as
functions into `Outcome` since they may themselves throw. -/
def Future.complete (fut : Future) (onSuccess onFailure : Val → Outcome) : Promised :=
(fut.action.thenRun onSuccess).catchRun onFailure

/-- `Either<L, R>` from `src/either/either.ts` (the full variant implementing
Monad/Futurizable/Foldable/Railway), with payloads modelled as `Val`. -/
inductive Either where
| left (value : Val) : Either
| right (value : Val) : Either
deriving DecidableEq, Repr

/-- `Try<T>` from `src/try/try.ts`. The `Failure` branch's field is declared
`Error` in the source, but `Try.execute` stores the caught value through the
unchecked cast `error as Error`, so at runtime the payload may be any value;
the model therefore keeps it as `Val`. -/
inductive Try where
| success (value : Val) : Try
| failure (error : Val) : Try
deriving DecidableEq, Repr

/-- `Option<T>` from `src/option/option.ts`. -/
inductive Option where
| some (value : Val) : Option
| none : Option
deriving DecidableEq, Repr

/-- The case map passed to `fold`. The cross-kind `from` constructors supply
all six handler keys at once; each container's `fold` reads only its own
pair (`ifRight`/`ifLeft`, `ifSuccess`/`ifFailure`, `ifSome`/`ifNone`). -/
structure Folding (T : Type) where
ifRight : Val → T
ifLeft : Val → T
ifSuccess : Val → T
ifFailure : Val → T
ifSome : Val → T
ifNone : Val → T

/-- A value of any of the three synchronous foldable container kinds, as
accepted by the `from` constructors. -/
inductive Foldable where
| ofOption (o : Option) : Foldable
| ofEither (e : Either) : Foldable
| ofTry (t : Try) : Foldable
deriving DecidableEq, Repr

/-- Exhaustive dispatch: each container's `fold` invokes the handler matching
its current variant (`Some.fold`/`None.fold`, `Left.fold`/`Right.fold`,
`Success.fold`/`Failure.fold` in the source). `None.fold` passes `undefined`
to `ifNone`. -/
def Foldable.fold {T : Type} (f : Foldable) (folding : Folding T) : T :=
match f with
| .ofOption (.some v) => folding.ifSome v
| .ofOption .none => folding.ifNone Val.vundef
| .ofEither (.right v) => folding.ifRight v
| .ofEither (.left v) => folding.ifLeft v
| .ofTry (.success v) => folding.ifSuccess v
| .ofTry (.failure e) => folding.ifFailure e

namespace Either

/-- `Left.map` / `Right.map`. -/
def map (e : Either) (transform : Val → Val) : Either :=
match e with
| .left v => .left v
| .right v => .right (transform v)

/-- `Left.mapLeft` / `Right.mapLeft`. -/
def mapLeft (e : Either) (transform : Val → Val) : Either :=
match e with
| .left v => .left (transform v)
| .right v => .right v

/-- `Left.flatMap` / `Right.flatMap`. -/
def flatMap (e : Either) (transform : Val → Either) : Either :=
match e with
| .left v => .left v
| .right v => transform v

/-- `Left.andThen` / `Right.andThen`. -/
def andThen (e : Either) (transform : Val → Either) : Either :=
match e with
| .left v => .left v
| .right v => transform v

/-- `Left.orElse` / `Right.orElse`. -/
def orElse (e : Either) (transform : Val → Either) : Either :=
match e with
| .left v => transform v
| .right v => .right v

/-- `isRight`. -/
def isRight : Either → Bool
| .left _ => false
| .right _ => true

/-- The loop body of `Right.combineWith`: walk `others` in iteration order,
collecting each `Right` value and returning the first `Left` payload
encountered, if any. -/
def collect : List Either → Val ⊕ List Val
| [] => .inr []
| .left e :: _ => .inl e
| .right v :: rest =>
  match collect rest with
  | .inl e => .inl e
  | .inr vs => .inr (v :: vs)

/-- `Left.combineWith` returns the receiver's own `Left`;
`Right.combineWith` starts the collected array with its own value, walks
`others`, short-circuits on the first `Left`, and otherwise returns a `Right`
holding the array of all values in order. -/
def combineWith (e : Either) (others : List Either) : Either :=
match e with
| .left v => .left v
| .right v =>
  match collect others with
  | .inl err => .left err
  | .inr vs => .right (.varr (v :: vs))

/-- `Either.catch(execute)`: a normal return becomes `Right`; a thrown
`Error` becomes `Left` of that error; any other thrown value becomes
`Left(new Error('Unknown error'))`. -/
def catchExec : Outcome → Either
| .ret v => .right v
| .thr v => if v.isError then .left v else .left (.verror "Unknown error")

/-- `Either.from(other)`: folds any `Foldable` with a case map funnelling
every success key into `Either.right` and every failure key into
`Either.left`. -/
def fromFoldable (other : Foldable) : Either :=
other.fold {
  ifRight := fun value => Either.right value
  ifLeft := fun value => Either.left value
  ifSuccess := fun value => Either.right value
  ifFailure := fun value => Either.left value
  ifSome := fun value => Either.right value
  ifNone := fun value => Either.left value }

/-- `Right.toFuture` resolves with the payload; `Left.toFuture` rejects with
`new Error(this.value?.toString() ?? 'Unknown error')` — optional chaining
makes a nullish payload fall back to the fixed message. -/
def toFuture (e : Either) : Future :=
match e with
| .right v => ⟨.resolved v⟩
| .left v => ⟨.rejected (.verror (if v.isNullish then "Unknown error" else v.jsToString))⟩

end Either

namespace Try

/-- `Try.execute(executable)`: a normal return becomes `Success`; a caught
value is stored via `new Failure(error as Error)` — the cast performs no
runtime conversion, so the raw thrown value is stored as the payload. -/
def execute : Outcome → Try
| .ret v => .success v
| .thr v => .failure v

/-- `Success.map` / `Failure.map`. -/
def map (t : Try) (transform : Val → Val) : Try :=
match t with
| .success v => .success (transform v)
| .failure e => .failure e

/-- `Success.flatMap` / `Failure.flatMap`. -/
def flatMap (t : Try) (transform : Val → Try) : Try :=
match t with
| .success v => transform v
| .failure e => .failure e

/-- `Success.andThen` / `Failure.andThen`. -/
def andThen (t : Try) (transform : Val → Try) : Try :=
match t with
| .success v => transform v
| .failure e => .failure e

/-- `Try.from(foldable)`: `ifSuccess`/`ifSome`/`ifRight` funnel into
`Try.success`; `ifFailure` passes the error through (via the `as Error`
cast); `ifNone` synthesizes `Error('Empty value')`; `ifLeft` synthesizes
`Error('Left value: ' + value)` using JavaScript string concatenation. -/
def fromFoldable (foldable : Foldable) : Try :=
foldable.fold {
  ifSuccess := fun value => Try.success value
  ifFailure := fun error => Try.failure error
  ifSome := fun value => Try.success value
  ifNone := fun _ => Try.failure (.verror "Empty value")
  ifRight := fun value => Try.success value
  ifLeft := fun value => Try.failure (.verror ("Left value: " ++ value.jsToString)) }

/-- `Success.toFuture` resolves with the value; `Failure.toFuture` rejects
with the stored error unchanged. -/
def toFuture (t : Try) : Future :=
match t with
| .success v => ⟨.resolved v⟩
| .failure e => ⟨.rejected e⟩

end Try

namespace Option

/-- `Option.of(value)`: `null` and `undefined` become `None`, anything else
becomes `Some`. -/
def of (value : Val) : Option :=
if value.isNullish then .none else .some value

/-- `Some.map` / `None.map`. -/
def map (o : Option) (transform : Val → Val) : Option :=
match o with
| .some v => .some (transform v)
| .none => .none

/-- `Some.flatMap` / `None.flatMap`. -/
def flatMap (o : Option) (transform : Val → Option) : Option :=
match o with
| .some v => transform v
| .none => .none

/-- `Some.andThen` / `None.andThen`. -/
def andThen (o : Option) (transform : Val → Option) : Option :=
match o with
| .some v => transform v
| .none => .none

/-- `Option.from(foldable)`: the success keys funnel into `Option.of` (note:
not `Option.some`), the failure keys into `Option.none`. -/
def fromFoldable (foldable : Foldable) : Option :=
foldable.fold {
  ifSome := fun value => Option.of value
  ifNone := fun _ => Option.none
  ifSuccess := fun value => Option.of value
  ifFailure := fun _ => Option.none
  ifRight := fun value => Option.of value
  ifLeft := fun _ => Option.none }

/-- `Some.toFuture` resolves with the value; `None.toFuture` rejects with
`new Error('No value provided')`. -/
def toFuture (o : Option) : Future :=
match o with
| .some v => ⟨.resolved v⟩
| .none => ⟨.rejected (.verror "No value provided")⟩

end Option

end Monads

namespace Monads

/-- A JavaScript zero-argument side-effecting computation `() => T`,
modelled with an observable invocation counter: invoking it maps the current
count to a produced value and the updated count. -/
def Eff : Type := Nat → Val × Nat

/-- `class IO<T>` from `src/io/io.ts` (named `IOEffect` here to avoid the
ambient `IO` of the proof assistant): it holds the unexecuted computation in
its `description` field. -/
structure IOEffect where
description : Eff

namespace IOEffect

/-- `IO.of(sideEffect)`: wraps the computation without invoking it. -/
def of (sideEffect : Eff) : IOEffect := ⟨sideEffect⟩

/-- `IO.map(transform)`: `new IO(() => transform(this.description()))` — a
new computation that, when invoked, runs the original then applies the
transform. Creating the closure invokes nothing. -/
def map (m : IOEffect) (transform : Val → Val) : IOEffect :=
⟨fun n => let p := m.description n; (transform p.1, p.2)⟩

/-- `IO.flatMap(transform)`:
`new IO(() => transform(this.description()).runUnsafe())` — when invoked,
runs the original, applies the transform, then runs the resulting IO's own
computation. -/
def flatMap (m : IOEffect) (transform : Val → IOEffect) : IOEffect :=
⟨fun n => let p := m.description n; (transform p.1).description p.2⟩

/-- `IO.runUnsafe()`: invokes the composed computation. -/
def runUnsafe (m : IOEffect) : Eff := m.description

end IOEffect

/-- A construction-and-composition expression over the deferred-effect
container: `IO.of` followed by a chain of `map`/`flatMap` calls. -/
inductive IOExpr where
| ofE (e : Eff) : IOExpr
| mapE (x : IOExpr) (f : Val → Val) : IOExpr
| flatMapE (x : IOExpr) (f : Val → IOEffect) : IOExpr

/-- Evaluating a construction/composition expression while threading the
effect counter. Each case mirrors the source: `of`, `map` and `flatMap` only
allocate a wrapper around a new closure (`new IO(() => ...)`), whose body is
not executed at creation, so the counter passes through each constructor
untouched. -/
def IOExpr.build : IOExpr → Nat → IOEffect × Nat
| .ofE e, n => (IOEffect.of e, n)
| .mapE x f, n => let p := x.build n; (p.1.map f, p.2)
| .flatMapE x f, n => let p := x.build n; (p.1.flatMap f, p.2)

/-- The composed pipeline a chain denotes once run: the original computation
runs first, each `map` transform is applied to its predecessor's value, and
each `flatMap` additionally runs the produced container's own computation. -/
def IOExpr.denote : IOExpr → Eff
| .ofE e => e
| .mapE x f => fun n => let p := x.denote n; (f p.1, p.2)
| .flatMapE x f => fun n => let p := x.denote n; (f p.1).description p.2

/-- A promise that settles at a known (virtual) time with a synchronous
`Either`; `AsyncEither`'s wrapped promise only ever resolves. -/
structure TimedPromise where
time : Nat
settled : Either
deriving DecidableEq, Repr

/-- `Promise.race([p, q])`: settles like whichever argument settles first;
with equal settle times the first-listed promise wins. -/
def TimedPromise.race (p q : TimedPromise) : TimedPromise :=
if p.time ≤ q.time then p else q

/-- `class AsyncEither<L, R>` from `src/either/async-either.ts`: wraps a
single pending promise of a synchronous `Either`. -/
structure AsyncEither where
promise : TimedPromise
deriving DecidableEq, Repr

/-- `AsyncEither.withTimeout(ms, onTimeout)`: a new `AsyncEither` wrapping
`Promise.race` of the original promise against a timer promise that resolves
to `Either.left(onTimeout())` after `ms`. The original promise itself is
untouched: its work still settles at its own time with its own value. -/
def AsyncEither.withTimeout (ae : AsyncEither) (ms : Nat) (onTimeout : Unit → Val) : AsyncEither :=
⟨TimedPromise.race ae.promise ⟨ms, Either.left (onTimeout ())⟩⟩

end Monads

namespace Monads.Either

/-- The success values of a list of `Either`s, in iteration order (used to
describe `combineWith`'s all-successes result). -/
def rightVals : List Either → List Val
| [] => []
| .left _ :: rest => rightVals rest
| .right v :: rest => v :: rightVals rest

end Monads.Either

theorem collect_all_rights (others : List Monads.Either)
    (h : ∀ x ∈ others, x.isRight = true) :
    Monads.Either.collect others = Sum.inr (Monads.Either.rightVals others) := by
  induction others with
  | nil => rfl
  | cons x rest ih =>
    cases x with
    | left e => exact absurd (h _ (List.mem_cons_self _ _)) (by simp [Monads.Either.isRight])
    | right v =>
      have hrest : ∀ y ∈ rest, Monads.Either.isRight y = true :=
        fun y hy => h y (List.mem_cons_of_mem _ hy)
      simp [Monads.Either.collect, Monads.Either.rightVals, ih hrest]

theorem collect_first_left (pre : List Monads.Either) (e : Val) (post : List Monads.Either)
    (h : ∀ x ∈ pre, x.isRight = true) :
    Monads.Either.collect (pre ++ Monads.Either.left e :: post) = Sum.inl e := by
  induction pre with
  | nil => rfl
  | cons x rest ih =>
    cases x with
    | left e0 => exact absurd (h _ (List.mem_cons_self _ _)) (by simp [Monads.Either.isRight])
    | right v =>
      have hrest : ∀ y ∈ rest, Monads.Either.isRight y = true :=
        fun y hy => h y (List.mem_cons_of_mem _ hy)
      simp [Monads.Either.collect, ih hrest]

/-- Claim C1: once an Either is Left, a Try is Failure, or an Option is None,
the operations map, flatMap and andThen return the same failure variant with
the original payload unchanged, for every supplied transform (so the
transform is never consulted). -/
theorem failure_short_circuits (lv : Val) (f : Val → Val)
    (ge : Val → Monads.Either) (gt : Val → Monads.Try) (go : Val → Monads.Option) :
    (Monads.Either.left lv).map f = Monads.Either.left lv ∧
    (Monads.Either.left lv).flatMap ge = Monads.Either.left lv ∧
    (Monads.Either.left lv).andThen ge = Monads.Either.left lv ∧
    (Monads.Try.failure lv).map f = Monads.Try.failure lv ∧
    (Monads.Try.failure lv).flatMap gt = Monads.Try.failure lv ∧
    (Monads.Try.failure lv).andThen gt = Monads.Try.failure lv ∧
    Monads.Option.none.map f = Monads.Option.none ∧
    Monads.Option.none.flatMap go = Monads.Option.none ∧
    Monads.Option.none.andThen go = Monads.Option.none :=
⟨rfl, rfl, rfl, rfl, rfl, rfl, rfl, rfl, rfl⟩

/-- Claim C2: combineWith on a Right zips the receiver's value with the
success values of the others in order when all are Right; otherwise it
returns the first Left payload in iteration order, independently of the
elements after it; a Left receiver returns itself regardless of others; and
the two concrete examples from the spec hold. -/
theorem combineWith_ordering (r lv e : Val) (others pre post : List Monads.Either) :
    ((∀ x ∈ others, x.isRight = true) →
      (Monads.Either.right r).combineWith others =
        Monads.Either.right (.varr (r :: Monads.Either.rightVals others))) ∧
    ((∀ x ∈ pre, x.isRight = true) →
      (Monads.Either.right r).combineWith (pre ++ Monads.Either.left e :: post) =
        Monads.Either.left e) ∧
    (Monads.Either.left lv).combineWith others = Monads.Either.left lv ∧
    (Monads.Either.right (.vnum 1)).combineWith
        [Monads.Either.right (.vstr "a"), Monads.Either.left (.vstr "err")] =
      Monads.Either.left (.vstr "err") ∧
    (Monads.Either.right (.vnum 1)).combineWith
        [Monads.Either.right (.vstr "a"), Monads.Either.right (.vbool true)] =
      Monads.Either.right (.varr [.vnum 1, .vstr "a", .vbool true]) := by
  refine ⟨fun h => ?_, fun h => ?_, rfl, rfl, rfl⟩
  · simp [Monads.Either.combineWith, collect_all_rights others h]
  · simp [Monads.Either.combineWith, collect_first_left pre e post h]

/-- Witness for C2: both spec examples obtained by applying
`combineWith_ordering` at concrete inputs and discharging its hypotheses. -/
theorem combineWith_ordering_witness :
    (Monads.Either.right (Val.vnum 1)).combineWith
        [Monads.Either.right (Val.vstr "a"), Monads.Either.left (Val.vstr "err")] =
      Monads.Either.left (Val.vstr "err") ∧
    (Monads.Either.right (Val.vnum 1)).combineWith
        [Monads.Either.right (Val.vstr "a"), Monads.Either.right (Val.vbool true)] =
      Monads.Either.right (Val.varr [Val.vnum 1, Val.vstr "a", Val.vbool true]) :=
⟨(combineWith_ordering (Val.vnum 1) Val.vnull (Val.vstr "err")
    [Monads.Either.right (Val.vstr "a"), Monads.Either.right (Val.vbool true)]
    [Monads.Either.right (Val.vstr "a")] []).2.1 (by decide),
 (combineWith_ordering (Val.vnum 1) Val.vnull (Val.vstr "err")
    [Monads.Either.right (Val.vstr "a"), Monads.Either.right (Val.vbool true)]
    [Monads.Either.right (Val.vstr "a")] []).1 (by decide)⟩

/-- Claim C3 (code bug record): `Try.execute` stores a caught non-Error
thrown value unchanged — the `error as Error` cast normalizes nothing — so
the resulting Failure payload is the raw thrown string, not an Error, contra
the spec's invariant. Evaluated at the failing input
`() => { throw 'kaboom'; }`. -/
theorem try_execute_keeps_raw_thrown_value :
    Monads.Try.execute (.thr (.vstr "kaboom")) = Monads.Try.failure (.vstr "kaboom") ∧
    (Val.vstr "kaboom").isError = false :=
⟨rfl, rfl⟩

/-- Claim C4: `Either.catch` wraps a normal return in Right, keeps a thrown
Error as the Left payload, and replaces any non-Error thrown value with
`new Error('Unknown error')`. -/
theorem either_catch_normalization (v : Val) (m : String) :
    Monads.Either.catchExec (.ret v) = Monads.Either.right v ∧
    Monads.Either.catchExec (.thr (.verror m)) = Monads.Either.left (.verror m) ∧
    (v.isError = false →
      Monads.Either.catchExec (.thr v) = Monads.Either.left (.verror "Unknown error")) :=
⟨rfl, rfl, fun h => by simp [Monads.Either.catchExec, h]⟩

/-- Witness for C4: `Either.catch(() => { throw 'raw string'; })` yields
`Left(Error('Unknown error'))`, by applying `either_catch_normalization`. -/
theorem either_catch_normalization_witness :
    Monads.Either.catchExec (.thr (.vstr "raw string")) =
      Monads.Either.left (.verror "Unknown error") :=
(either_catch_normalization (.vstr "raw string") "").2.2 rfl

/-- Counterexample to claim C5 as stated: `Option.from` does not map every
success variant to Some of the same value — the success handlers route
through `Option.of`, so a Right holding `null` converts to None, not
`Some(null)`. -/
theorem option_from_right_null_counterexample :
    Monads.Option.fromFoldable (.ofEither (.right Val.vnull)) = Monads.Option.none ∧
    Monads.Option.none ≠ Monads.Option.some Val.vnull :=
⟨rfl, by decide⟩

/-- Claim C5 (amended): `Option.from` maps a success payload v to
`Option.of v` — Some v when v is not nullish, None when v is null or
undefined — and every failure variant to None; `Either.from` maps every
success payload to Right and every failure payload to Left (None's payload
being the `undefined` its fold supplies); in particular
`Option.from(Either.right(5)) = Option.of(5)` and
`Either.from(Option.of(undefined)) = Either.left(undefined)`. -/
theorem from_conversions (v e : Val) :
    Monads.Option.fromFoldable (.ofEither (.right v)) = Monads.Option.of v ∧
    Monads.Option.fromFoldable (.ofTry (.success v)) = Monads.Option.of v ∧
    Monads.Option.fromFoldable (.ofOption (.some v)) = Monads.Option.of v ∧
    Monads.Option.fromFoldable (.ofEither (.left v)) = Monads.Option.none ∧
    Monads.Option.fromFoldable (.ofTry (.failure e)) = Monads.Option.none ∧
    Monads.Option.fromFoldable (.ofOption .none) = Monads.Option.none ∧
    Monads.Either.fromFoldable (.ofEither (.right v)) = Monads.Either.right v ∧
    Monads.Either.fromFoldable (.ofTry (.success v)) = Monads.Either.right v ∧
    Monads.Either.fromFoldable (.ofOption (.some v)) = Monads.Either.right v ∧
    Monads.Either.fromFoldable (.ofEither (.left v)) = Monads.Either.left v ∧
    Monads.Either.fromFoldable (.ofTry (.failure e)) = Monads.Either.left e ∧
    Monads.Either.fromFoldable (.ofOption .none) = Monads.Either.left Val.vundef ∧
    Monads.Option.fromFoldable (.ofEither (.right (.vnum 5))) = Monads.Option.of (.vnum 5) ∧
    Monads.Either.fromFoldable (.ofOption (Monads.Option.of Val.vundef)) =
      Monads.Either.left Val.vundef :=
⟨rfl, rfl, rfl, rfl, rfl, rfl, rfl, rfl, rfl, rfl, rfl, rfl, rfl, rfl⟩

/-- Claim C6: over every chain of map/flatMap applied to a constructed
deferred-effect container, threading the invocation counter through the
construction and composition steps leaves it untouched (the wrapped
computation runs zero times before the terminal run), and `runUnsafe` of the
built container executes exactly the composed pipeline: the original
computation first, each map transform on its predecessor's value, and for
flatMap additionally the produced container's own computation. -/
theorem io_deferred_pipeline (x : Monads.IOExpr) (n m : Nat) :
    ((x.build n).1).runUnsafe m = x.denote m ∧ (x.build n).2 = n := by
  induction x generalizing n m with
  | ofE e => exact ⟨rfl, rfl⟩
  | mapE y f ih =>
    refine ⟨?_, (ih n m).2⟩
    have h := (ih n m).1
    simp only [Monads.IOExpr.build, Monads.IOExpr.denote, Monads.IOEffect.map,
      Monads.IOEffect.runUnsafe] at h ⊢
    rw [h]
  | flatMapE y f ih =>
    refine ⟨?_, (ih n m).2⟩
    have h := (ih n m).1
    simp only [Monads.IOExpr.build, Monads.IOExpr.denote, Monads.IOEffect.flatMap,
      Monads.IOEffect.runUnsafe] at h ⊢
    rw [h]

/-- Claim C7: `withTimeout(ms, onTimeout)` returns a new AsyncEither racing
the original pending result against a timer: if the timer fires first the
result is the Left manufactured by `onTimeout`, settling at `ms`; if the
original settles first it is delivered unchanged. The original promise is
not cancelled: `withTimeout` only wraps it in a race, leaving its own
settlement time and value intact. -/
theorem withTimeout_races (ae : Monads.AsyncEither) (ms : Nat) (onTimeout : Unit → Val) :
    (ms < ae.promise.time →
      (ae.withTimeout ms onTimeout).promise = ⟨ms, Monads.Either.left (onTimeout ())⟩) ∧
    (ae.promise.time < ms →
      (ae.withTimeout ms onTimeout).promise = ae.promise) := by
  constructor
  · intro h
    simp only [Monads.AsyncEither.withTimeout, Monads.TimedPromise.race]
    rw [if_neg (by omega)]
  · intro h
    simp only [Monads.AsyncEither.withTimeout, Monads.TimedPromise.race]
    rw [if_pos (by omega)]

/-- Witness for C7: a pending result settling at 200 raced against
`withTimeout(50, ...)` resolves to the timeout's manufactured failure, by
applying `withTimeout_races`. -/
theorem withTimeout_races_witness :
    ((Monads.AsyncEither.mk ⟨200, Monads.Either.right (Val.vnum 1)⟩).withTimeout 50
        (fun _ => Val.vstr "timeout")).promise =
      ⟨50, Monads.Either.left (Val.vstr "timeout")⟩ :=
(withTimeout_races (Monads.AsyncEither.mk ⟨200, Monads.Either.right (Val.vnum 1)⟩) 50
  (fun _ => Val.vstr "timeout")).1 (by decide)

/-- Counterexample to claim C8 as stated: `Left.toFuture` does not convert
every non-Error failure payload via its string representation — optional
chaining turns a `null` payload into the fixed `Error('Unknown error')`,
not `Error('null')`. -/
theorem left_toFuture_null_counterexample :
    (Monads.Either.left Val.vnull).toFuture =
      ⟨.rejected (.verror "Unknown error")⟩ ∧
    Monads.Future.mk (.rejected (.verror "Unknown error")) ≠
      ⟨.rejected (.verror Val.vnull.jsToString)⟩ :=
⟨rfl, by decide⟩

/-- Claim C8 (amended): `toFuture()` resolves with the payload on every
success variant; a Try Failure rejects with its stored error unchanged; an
Option None rejects with `Error('No value provided')`; an Either Left with a
non-nullish payload rejects with an Error carrying the payload's string
representation, while a null or undefined payload rejects with
`Error('Unknown error')`. -/
theorem toFuture_conversions (v e : Val) :
    (Monads.Either.right v).toFuture = ⟨.resolved v⟩ ∧
    (Monads.Option.some v).toFuture = ⟨.resolved v⟩ ∧
    (Monads.Try.success v).toFuture = ⟨.resolved v⟩ ∧
    (Monads.Try.failure e).toFuture = ⟨.rejected e⟩ ∧
    Monads.Option.none.toFuture = ⟨.rejected (.verror "No value provided")⟩ ∧
    (v.isNullish = false →
      (Monads.Either.left v).toFuture = ⟨.rejected (.verror v.jsToString)⟩) ∧
    (Monads.Either.left Val.vnull).toFuture = ⟨.rejected (.verror "Unknown error")⟩ ∧
    (Monads.Either.left Val.vundef).toFuture = ⟨.rejected (.verror "Unknown error")⟩ :=
⟨rfl, rfl, rfl, rfl, rfl, fun h => by simp [Monads.Either.toFuture, h], rfl, rfl⟩

/-- Witness for C8: `Either.left('error').toFuture()` rejects with
`Error('error')`, by applying `toFuture_conversions`. -/
theorem toFuture_conversions_witness :
    (Monads.Either.left (Val.vstr "error")).toFuture =
      ⟨.rejected (.verror "error")⟩ :=
(toFuture_conversions (Val.vstr "error") Val.vnull).2.2.2.2.2.1 rfl

/-- Claim C9: in `Future.complete(onSuccess, onFailure)` =
`action().then(onSuccess).catch(onFailure)`, a success handler that throws
routes its thrown value into the failure handler (whose outcome settles the
returned promise), and a rejection of the underlying action reaches the
failure handler directly. -/
theorem future_complete_error_routing (onS onF : Val → Monads.Outcome) (v e : Val) :
    (onS v = .thr e →
      Monads.Future.complete ⟨.resolved v⟩ onS onF = (onF e).settle) ∧
    Monads.Future.complete ⟨.rejected e⟩ onS onF = (onF e).settle := by
  constructor
  · intro h
    simp [Monads.Future.complete, Monads.Promised.thenRun, h, Monads.Outcome.settle,
      Monads.Promised.catchRun]
  · rfl

/-- Witness for C9: an action resolving with 1 whose success handler throws
'boom' settles with the failure handler's result, by applying
`future_complete_error_routing`. -/
theorem future_complete_error_routing_witness :
    Monads.Future.complete ⟨.resolved (Val.vnum 1)⟩
        (fun _ => .thr (Val.vstr "boom")) (fun x => .ret x) =
      .resolved (Val.vstr "boom") :=
(future_complete_error_routing (fun _ => .thr (Val.vstr "boom")) (fun x => .ret x)
  (Val.vnum 1) (Val.vstr "boom")).1 rfl

/-- Claim C10: `Try.from` folds a None to `Failure(Error('Empty value'))`, a
Left with payload v to `Failure(Error('Left value: ' + v))` — including when
v is itself an Error, whose string form is spliced in — passes a Failure's
error through unwrapped, and folds every success variant to Success of the
same value. -/
theorem try_from_normalization (v e : Val) :
    Monads.Try.fromFoldable (.ofOption .none) =
      Monads.Try.failure (.verror "Empty value") ∧
    Monads.Try.fromFoldable (.ofEither (.left v)) =
      Monads.Try.failure (.verror ("Left value: " ++ v.jsToString)) ∧
    Monads.Try.fromFoldable (.ofEither (.left (.verror "boom"))) =
      Monads.Try.failure (.verror "Left value: Error: boom") ∧
    Monads.Try.fromFoldable (.ofTry (.failure e)) = Monads.Try.failure e ∧
    Monads.Try.fromFoldable (.ofOption (.some v)) = Monads.Try.success v ∧
    Monads.Try.fromFoldable (.ofEither (.right v)) = Monads.Try.success v ∧
    Monads.Try.fromFoldable (.ofTry (.success v)) = Monads.Try.success v :=
⟨rfl, rfl, rfl, rfl, rfl, rfl, rfl⟩
